import Mathlib

/-!
# Verification of the rotation + auto-crop engine of the `imagenes` image processor

This file gives a shallow embedding, in Lean 4, of the geometry and pixel-scanning
code of the client-side image processing workers:

* `public/workers/image-processor.worker.mjs` — the consolidated geometric pipeline
  (`calculateGeometricInscribedRectangle`, `rotateImage`, `calculateAlphaBoundingBox`,
  `refineBoundingBox`, `autoCropByAlpha`, `autoCropByAlphaWithMarginCompensation`,
  `processImage`);
* `workers/image-processor.worker.ts` — the legacy worker iteration
  (`calculateInscribedRectangle`, inline `processImage`).

Modelling conventions:

* JavaScript double arithmetic is modelled by exact arithmetic: angles and other
  inputs that the code branches on with `%`, comparisons and equality tests are
  rationals (`ℚ`), and the trigonometric computations are carried out over `ℝ`.
  At every concrete input appearing in a theorem below, the discrete outputs
  (floors, ceils, min/max of the double computation) coincide with the exact
  real computation.
* `Math.floor`, `Math.ceil`, `Math.round` become `Int.floor`, `Int.ceil`, `round`
  (`round x = ⌊x + 1/2⌋`, which is JavaScript's half-up rounding).
* The JavaScript remainder `a % b` (truncated division, sign of the dividend)
  is modelled by `jsRem` on `ℚ`.
* A pixel buffer is the RGBA byte array an `ImageData` provides: a flat list of
  `width*height` quadruplets, row-major.  Out-of-range reads (`undefined` in
  JavaScript, whose comparisons are all false) are modelled by `Option`-valued
  reads whose comparison helpers return `false` on `none`.
* Canvas state effects are modelled by the values the code computes: buffer
  dimensions, crop rectangles, and — for the pipeline-level claims — a trace of
  the canvases each `processImage` stage allocates, with the background each
  allocation is filled with (`clearRect` = transparent, `fillRect 'white'` = white).
-/

namespace ImageProc

/-! ## JavaScript remainder and the angle normalization of `rotateImage` -/

/-- Truncation toward zero on `ℚ` (the integer part JavaScript's `%` divides by). -/
def truncQ (q : ℚ) : ℤ :=
  if 0 ≤ q then ⌊q⌋ else ⌈q⌉

/-- JavaScript's remainder operator `a % b` on exact rationals:
`a - b * trunc (a / b)`, the remainder of truncated division (sign of `a`). -/
def jsRem (a b : ℚ) : ℚ :=
  a - b * truncQ (a / b)

/-- Angle normalization from `rotateImage`
(`image-processor.worker.mjs`, lines 547-548):
`((angleDegrees % 360) + 360) % 360`, then subtract `360` if the result
exceeds `180`. -/
def normalizeAngle (a : ℚ) : ℚ :=
  let n := jsRem (jsRem a 360 + 360) 360
  if n > 180 then n - 360 else n

/-- Modelled from the spec (§3 Data model, "Angle"): normalization of an input
angle "to `(-180, 180]` via `((a % 360) + 360) % 360`, then folded".  Stated
separately from `normalizeAngle` (which is transcribed from the code) so the
two can be compared. -/
def specNormalizeAngle (a : ℚ) : ℚ :=
  let n := jsRem (jsRem a 360 + 360) 360
  if n > 180 then n - 360 else n

/-! ## Rectangles and pixel buffers -/

/-- An axis-aligned rectangle in some canvas's coordinate space
(the `{x, y, width, height}` objects of the worker code). -/
structure Rect where
  x : ℤ
  y : ℤ
  width : ℤ
  height : ℤ
  deriving DecidableEq, Repr

/-- A decoded pixel buffer: dimensions plus the flat row-major RGBA byte list
(4 entries per pixel, each 0-255) that `getImageData(...).data` returns. -/
structure PixelBuffer where
  width : ℕ
  height : ℕ
  data : List ℕ
  deriving DecidableEq, Repr

/-! ## Trigonometry of an angle given in degrees -/

/-- Degrees to radians, `(angle * Math.PI) / 180`. -/
noncomputable def degRad (a : ℚ) : ℝ :=
  (a : ℝ) * Real.pi / 180

/-- `Math.abs(Math.cos(angleRad))` for an angle in degrees. -/
noncomputable def cosAbs (a : ℚ) : ℝ :=
  |Real.cos (degRad a)|

/-- `Math.abs(Math.sin(angleRad))` for an angle in degrees. -/
noncomputable def sinAbs (a : ℚ) : ℝ :=
  |Real.sin (degRad a)|

/-! ## The geometric inscribed rectangle (`image-processor.worker.mjs`, lines 884-969)

`calculateGeometricInscribedRectangle(originalWidth, originalHeight, rotationAngle,
canvasWidth, canvasHeight, shavePixels)` transcribed line by line.  The two
consecutive `Math.floor` applications of the source (first on the scaled width,
then after subtracting the integer `shavePixels * 2`) collapse to a single
`Int.floor` followed by an integer subtraction, because the second floor acts
on an integer. -/

/-- The `normalizedAngle = Math.abs(rotationAngle % 180)` computed at line 893. -/
def geoNormalizedAngle (rotationAngle : ℚ) : ℚ :=
  |jsRem rotationAngle 180|

/-- `calculateGeometricInscribedRectangle` of `image-processor.worker.mjs`. -/
noncomputable def calculateGeometricInscribedRectangle
    (originalWidth originalHeight : ℕ) (rotationAngle : ℚ)
    (canvasWidth canvasHeight : ℝ) (shavePixels : ℕ) : Rect :=
  let normalizedAngle := geoNormalizedAngle rotationAngle
  if normalizedAngle = 0 then
    -- no rotation: original dimensions centered, with shave
    { x := max 0 (⌊(canvasWidth - originalWidth) / 2⌋ + shavePixels)
      y := max 0 (⌊(canvasHeight - originalHeight) / 2⌋ + shavePixels)
      width := max 1 ((originalWidth : ℤ) - 2 * shavePixels)
      height := max 1 ((originalHeight : ℤ) - 2 * shavePixels) }
  else
    let c := cosAbs normalizedAngle
    let s := sinAbs normalizedAngle
    let iw : ℝ :=
      if c + s = 0 then min (originalWidth : ℝ) (originalHeight : ℝ) * (7 / 10)
      else
        let factor :=
          min ((originalWidth : ℝ) / (originalWidth * c + originalHeight * s))
              ((originalHeight : ℝ) / (originalWidth * s + originalHeight * c))
        min ((originalWidth : ℝ) * factor) (originalWidth : ℝ)
    let ih : ℝ :=
      if c + s = 0 then min (originalWidth : ℝ) (originalHeight : ℝ) * (7 / 10)
      else
        let factor :=
          min ((originalWidth : ℝ) / (originalWidth * c + originalHeight * s))
              ((originalHeight : ℝ) / (originalWidth * s + originalHeight * c))
        min ((originalHeight : ℝ) * factor) (originalHeight : ℝ)
    let inscribedWidth : ℤ := max 1 (⌊iw⌋ - 2 * shavePixels)
    let inscribedHeight : ℤ := max 1 (⌊ih⌋ - 2 * shavePixels)
    { x := max 0 ⌊(canvasWidth - inscribedWidth) / 2⌋
      y := max 0 ⌊(canvasHeight - inscribedHeight) / 2⌋
      width := inscribedWidth
      height := inscribedHeight }

/-- `calculateInscribedRectangle(width, height, angleDegrees)` of the legacy
worker `workers/image-processor.worker.ts` (lines 45-75): special-cases every
multiple of 90° to the unreduced original dimensions, otherwise applies the
`(w·cos + h·sin)/(cos + sin)` formula. -/
noncomputable def tsCalculateInscribedRectangle
    (width height : ℕ) (angleDegrees : ℚ) : Rect :=
  if jsRem angleDegrees 90 = 0 then
    { x := 0, y := 0, width := (width : ℤ), height := (height : ℤ) }
  else
    let c := cosAbs |angleDegrees|
    let s := sinAbs |angleDegrees|
    let inscribedWidth : ℤ := ⌊((width : ℝ) * c + height * s) / (c + s)⌋
    let inscribedHeight : ℤ := ⌊((height : ℝ) * c + width * s) / (c + s)⌋
    { x := max 0 ⌊((width : ℝ) - inscribedWidth) / 2⌋
      y := max 0 ⌊((height : ℝ) - inscribedHeight) / 2⌋
      width := inscribedWidth
      height := inscribedHeight }

/-! ## The rotation compositor (`image-processor.worker.mjs`, lines 541-596)

`rotateImage(imageBitmap, angleDegrees)` normalizes the angle, returns the
source bitmap unchanged when `|normalizedAngle| < 0.5`, and otherwise allocates
an expanded canvas (cleared to transparent), of the bounding-box size of the
rotated image plus a safety margin on each side, and draws the rotated source
onto it.  The result of the rotated branch is modelled by the exact canvas size
the code computes (the resampled pixel content is not modelled). -/

/-- `margin = Math.max(20, Math.min(origWidth, origHeight) * 0.05)` (line 565). -/
noncomputable def rotationMargin (origWidth origHeight : ℕ) : ℝ :=
  max 20 ((min origWidth origHeight : ℕ) * (5 / 100 : ℝ))

/-- `expandedWidth = Math.ceil(origWidth * cos + origHeight * sin)` (line 561),
with the trigonometry taken at the normalized angle. -/
noncomputable def expandedWidth (origWidth origHeight : ℕ) (a : ℚ) : ℤ :=
  ⌈(origWidth : ℝ) * cosAbs (normalizeAngle a) + origHeight * sinAbs (normalizeAngle a)⌉

/-- `expandedHeight = Math.ceil(origWidth * sin + origHeight * cos)` (line 562). -/
noncomputable def expandedHeight (origWidth origHeight : ℕ) (a : ℚ) : ℤ :=
  ⌈(origWidth : ℝ) * sinAbs (normalizeAngle a) + origHeight * cosAbs (normalizeAngle a)⌉

/-- `canvasWidth = expandedWidth + margin * 2` (line 566). -/
noncomputable def rotCanvasWidth (origWidth origHeight : ℕ) (a : ℚ) : ℝ :=
  (expandedWidth origWidth origHeight a : ℝ) + rotationMargin origWidth origHeight * 2

/-- `canvasHeight = expandedHeight + margin * 2` (line 567). -/
noncomputable def rotCanvasHeight (origWidth origHeight : ℕ) (a : ℚ) : ℝ :=
  (expandedHeight origWidth origHeight a : ℝ) + rotationMargin origWidth origHeight * 2

/-- Result of `rotateImage`: either the source bitmap returned unchanged
(the `|normalizedAngle| < 0.5` early return at lines 551-554), or a freshly
allocated rotation canvas of the given real-valued computed size. -/
inductive RotateResult where
  | pass (source : PixelBuffer)
  | rotated (canvasWidth canvasHeight : ℝ)

/-- `rotateImage(imageBitmap, angleDegrees)` of `image-processor.worker.mjs`. -/
noncomputable def rotateImage (imageBitmap : PixelBuffer) (angleDegrees : ℚ) :
    RotateResult :=
  if |normalizeAngle angleDegrees| < 1 / 2 then
    .pass imageBitmap
  else
    .rotated (rotCanvasWidth imageBitmap.width imageBitmap.height angleDegrees)
             (rotCanvasHeight imageBitmap.width imageBitmap.height angleDegrees)

/-! Spec-side formulas for the expanded rotation canvas, written from the spec's
own words (§4.1 `computeExpandedCanvasSize` and the recommended safety margin)
in terms of the *raw* input angle, to be compared with the code's values. -/

/-- Modelled from the spec: `boundW = ceil(w0 * |cos θ| + h0 * |sin θ|)`. -/
noncomputable def specBoundW (w0 h0 : ℕ) (θ : ℚ) : ℤ :=
  ⌈(w0 : ℝ) * cosAbs θ + h0 * sinAbs θ⌉

/-- Modelled from the spec: `boundH = ceil(w0 * |sin θ| + h0 * |cos θ|)`. -/
noncomputable def specBoundH (w0 h0 : ℕ) (θ : ℚ) : ℤ :=
  ⌈(w0 : ℝ) * sinAbs θ + h0 * cosAbs θ⌉

/-- Modelled from the spec: safety margin `max(20, 0.05 * min(w0,h0))` pixels,
added "on each side" — i.e. `2 * margin` added to each bound dimension. -/
noncomputable def specCanvasW (w0 h0 : ℕ) (θ : ℚ) : ℝ :=
  (specBoundW w0 h0 θ : ℝ) + 2 * max 20 ((min w0 h0 : ℕ) * (5 / 100 : ℝ))

/-- Modelled from the spec: the expanded canvas height with the margin added
on each side. -/
noncomputable def specCanvasH (w0 h0 : ℕ) (θ : ℚ) : ℝ :=
  (specBoundH w0 h0 θ : ℝ) + 2 * max 20 ((min w0 h0 : ℕ) * (5 / 100 : ℝ))

/-! ## Pixel scanner / alpha trim (`image-processor.worker.mjs`, lines 102-497)

Pixel reads are `Option`-valued (`data[i]` is `undefined` beyond the array in
JavaScript); the comparison helpers below return `false` on `none`, exactly as
every JavaScript comparison involving `undefined`/`NaN` is false. -/

/-- Read a byte of the flat RGBA array at a natural index. -/
def px (data : List ℕ) (i : ℕ) : Option ℕ :=
  data[i]?

/-- Read a byte of the flat RGBA array at an integer index
(negative indices read `undefined`). -/
def pxZ (data : List ℕ) (i : ℤ) : Option ℕ :=
  if 0 ≤ i then data[i.toNat]? else none

/-- JavaScript `a < b` where `a` may be `undefined` (then the test is false). -/
def jsLt : Option ℕ → ℕ → Bool
  | some a, b => decide (a < b)
  | none, _ => false

/-- JavaScript `a <= b` where `a` may be `undefined`. -/
def jsLe : Option ℕ → ℕ → Bool
  | some a, b => decide (a ≤ b)
  | none, _ => false

/-- JavaScript `a > b` where `a` may be `undefined`. -/
def jsGt : Option ℕ → ℕ → Bool
  | some a, b => decide (b < a)
  | none, _ => false

/-- JavaScript `Math.abs(a - b) < c` where `a`, `b` may be `undefined`. -/
def jsAbsSubLt : Option ℕ → Option ℕ → ℕ → Bool
  | some a, some b, c => decide (((a : ℤ) - b).natAbs < c)
  | _, _, _ => false

/-- The "light background" heuristic of `calculateAlphaBoundingBox`
(lines 330-337): near-white, interpolated-beige, or very light grey colors. -/
def isLightBackground (r g b : Option ℕ) : Bool :=
  (jsGt r 240 && jsGt g 240 && jsGt b 240) ||
  (jsGt r 230 && jsGt g 220 && jsGt b 180 && jsAbsSubLt r g 20) ||
  (jsAbsSubLt r g 10 && jsAbsSubLt g b 10 && jsGt r 235)

/-- The per-pixel validity test of `calculateAlphaBoundingBox` (lines 312-346):
a pixel is folded into the bounding box unless it is at or below the alpha
threshold, or is a low-alpha pixel of a typical interpolated background color. -/
def validPixel (data : List ℕ) (width threshold x y : ℕ) : Bool :=
  let i := (y * width + x) * 4
  let r := px data i
  let g := px data (i + 1)
  let b := px data (i + 2)
  let a := px data (i + 3)
  if jsLe a threshold then false
  else if jsLt a threshold then false
  else if jsLt a (threshold + 50) && isLightBackground r g b then false
  else true

/-- Running `minX/minY/maxX/maxY` state of the alpha scan. -/
structure ScanState where
  minX : ℤ
  minY : ℤ
  maxX : ℤ
  maxY : ℤ
  deriving DecidableEq, Repr

/-- Row-major pixel coordinates of a `width × height` buffer
(the nested `for y / for x` loops of the scan). -/
def coords (width height : ℕ) : List (ℕ × ℕ) :=
  (List.range height).flatMap fun y => (List.range width).map fun x => (x, y)

/-- One step of the alpha scan: fold a valid pixel into the running extrema. -/
def scanStep (data : List ℕ) (width threshold : ℕ) (st : ScanState)
    (p : ℕ × ℕ) : ScanState :=
  if validPixel data width threshold p.1 p.2 then
    ⟨min st.minX p.1, min st.minY p.2, max st.maxX p.1, max st.maxY p.2⟩
  else st

/-- The full-buffer alpha scan (lines 309-348), starting from
`minX = width, minY = height, maxX = -1, maxY = -1`. -/
def scanFold (data : List ℕ) (width height threshold : ℕ) : ScanState :=
  (coords width height).foldl (scanStep data width threshold)
    ⟨(width : ℤ), (height : ℤ), -1, -1⟩

/-- The "suspicious rotation-artifact pixel" test of `refineBoundingBox`
(lines 399-401): low alpha, or a light beige color. -/
def suspiciousPixel (data : List ℕ) (width : ℕ) (x y : ℤ) : Bool :=
  let i := (y * width + x) * 4
  jsLt (pxZ data (i + 3)) 150 ||
    (jsGt (pxZ data i) 230 && jsGt (pxZ data (i + 1)) 220 && jsGt (pxZ data (i + 2)) 180)

/-- Whether more than 70% of the pixels of row `y`, for `x ∈ [minX, maxX]`, are
suspicious.  An empty range gives `0/0 = NaN` in JavaScript, whose comparison
with `0.7` is false; here the count inequality `10 * cnt > 7 * total` is then
`0 > 0`, equally false. -/
def rowSuspicious (data : List ℕ) (width : ℕ) (minX maxX y : ℤ) : Bool :=
  let xs := (List.range (maxX + 1 - minX).toNat).map fun i => minX + i
  let cnt := (xs.filter fun x => suspiciousPixel data width x y).length
  10 * cnt > 7 * xs.length

/-- Whether more than 70% of the pixels of column `x`, for `y ∈ [minY, maxY]`,
are suspicious. -/
def colSuspicious (data : List ℕ) (width : ℕ) (minY maxY x : ℤ) : Bool :=
  let ys := (List.range (maxY + 1 - minY).toNat).map fun i => minY + i
  let cnt := (ys.filter fun y => suspiciousPixel data width x y).length
  10 * cnt > 7 * ys.length

/-- The contracting loops of `refineBoundingBox`, ascending direction: starting
at `y`, advance past consecutive suspicious lines, stopping as soon as a line is
not suspicious or the index passes `bound`.  (In the source the `y < minY + 5`
window test never fires because `minY` is re-anchored to `y + 1` on every
contraction, so the loop is exactly this recursion.) -/
def stripForward (susp : ℤ → Bool) (bound : ℤ) : ℕ → ℤ → ℤ
  | 0, y => y
  | fuel + 1, y => if y > bound then y else if susp y then stripForward susp bound fuel (y + 1) else y

/-- The contracting loops of `refineBoundingBox`, descending direction. -/
def stripBackward (susp : ℤ → Bool) (bound : ℤ) : ℕ → ℤ → ℤ
  | 0, y => y
  | fuel + 1, y => if y < bound then y else if susp y then stripBackward susp bound fuel (y - 1) else y

/-- First contraction loop of `refineBoundingBox` (lines 386-411): contract
the top edge while more than 70% of the current top row is suspicious. -/
def refineMinY (data : List ℕ) (width : ℕ) (bbox : Rect) : ℤ :=
  let maxY0 := bbox.y + bbox.height - 1
  stripForward (fun y => rowSuspicious data width bbox.x (bbox.x + bbox.width - 1) y)
    maxY0 (maxY0 + 1 - bbox.y).toNat bbox.y

/-- Second contraction loop (lines 413-437): contract the bottom edge, bounded
below by the contracted top edge. -/
def refineMaxY (data : List ℕ) (width : ℕ) (bbox : Rect) : ℤ :=
  let maxY0 := bbox.y + bbox.height - 1
  stripBackward (fun y => rowSuspicious data width bbox.x (bbox.x + bbox.width - 1) y)
    (refineMinY data width bbox) (maxY0 + 1 - refineMinY data width bbox).toNat maxY0

/-- Third contraction loop (lines 439-463): contract the left edge, with the
column test over the already-contracted row range. -/
def refineMinX (data : List ℕ) (width : ℕ) (bbox : Rect) : ℤ :=
  let maxX0 := bbox.x + bbox.width - 1
  stripForward
    (fun x => colSuspicious data width (refineMinY data width bbox) (refineMaxY data width bbox) x)
    maxX0 (maxX0 + 1 - bbox.x).toNat bbox.x

/-- Fourth contraction loop (lines 465-489): contract the right edge. -/
def refineMaxX (data : List ℕ) (width : ℕ) (bbox : Rect) : ℤ :=
  let maxX0 := bbox.x + bbox.width - 1
  stripBackward
    (fun x => colSuspicious data width (refineMinY data width bbox) (refineMaxY data width bbox) x)
    (refineMinX data width bbox) (maxX0 + 1 - refineMinX data width bbox).toNat maxX0

/-- `refineBoundingBox(data, width, height, bbox)` (lines 380-497): contract the
box from the top, bottom, left and right while more than 70% of the edge line is
suspicious, then clamp the dimensions to at least 1. -/
def refineBoundingBox (data : List ℕ) (width : ℕ) (bbox : Rect) : Rect :=
  ⟨refineMinX data width bbox, refineMinY data width bbox,
    max 1 (refineMaxX data width bbox - refineMinX data width bbox + 1),
    max 1 (refineMaxY data width bbox - refineMinY data width bbox + 1)⟩

/-- `calculateAlphaBoundingBox(data, width, height, threshold)` (lines 308-375):
scan every pixel, return `null` when no pixel qualifies, otherwise refine the
raw bounding box. -/
def calculateAlphaBoundingBox (data : List ℕ) (width height threshold : ℕ) :
    Option Rect :=
  let st := scanFold data width height threshold
  if st.maxX = -1 ∨ st.maxY = -1 then none
  else some (refineBoundingBox data width
    ⟨st.minX, st.minY, st.maxX - st.minX + 1, st.maxY - st.minY + 1⟩)

/-- The RGBA bytes of source pixel `(sx, sy)`, transparent black when the
coordinate lies outside the buffer (`drawImage` leaves such destination pixels
on the cleared, fully transparent canvas). -/
def pixelBytes (buf : PixelBuffer) (sx sy : ℤ) : List ℕ :=
  if 0 ≤ sx ∧ sx < buf.width ∧ 0 ≤ sy ∧ sy < buf.height then
    let i := (sy.toNat * buf.width + sx.toNat) * 4
    [buf.data.getD i 0, buf.data.getD (i + 1) 0, buf.data.getD (i + 2) 0,
      buf.data.getD (i + 3) 0]
  else [0, 0, 0, 0]

/-- The cropped canvas produced by `drawImage(source, r.x, r.y, r.width,
r.height, 0, 0, r.width, r.height)` onto a fresh cleared canvas of the
rectangle's size. -/
def cropBuffer (buf : PixelBuffer) (r : Rect) : PixelBuffer :=
  ⟨r.width.toNat, r.height.toNat,
    (List.range r.height.toNat).flatMap fun y =>
      (List.range r.width.toNat).flatMap fun x => pixelBytes buf (r.x + x) (r.y + y)⟩

/-- Result record of the auto-crop functions: `{success, boundingBox, canvas}`. -/
structure AutoCropResult where
  success : Bool
  boundingBox : Rect
  canvas : PixelBuffer
  deriving DecidableEq, Repr

/-- `autoCropByAlpha(input, threshold)` (lines 211-302): on a `null` scan result
it returns a non-success record whose bounding box is the full canvas and whose
canvas is the unmodified input; otherwise it crops to the scanned box. -/
def autoCropByAlpha (input : PixelBuffer) (threshold : ℕ) : AutoCropResult :=
  match calculateAlphaBoundingBox input.data input.width input.height threshold with
  | none => ⟨false, ⟨0, 0, (input.width : ℤ), (input.height : ℤ)⟩, input⟩
  | some boundingBox => ⟨true, boundingBox, cropBuffer input boundingBox⟩

/-- `autoCropByAlphaWithMarginCompensation(input, threshold, ...)`
(lines 102-205): like `autoCropByAlpha` but shaving a fixed
`overcropPixels = 1` halo off the scanned box. -/
def autoCropByAlphaWithMarginCompensation (input : PixelBuffer) (threshold : ℕ) :
    AutoCropResult :=
  match calculateAlphaBoundingBox input.data input.width input.height threshold with
  | none => ⟨false, ⟨0, 0, (input.width : ℤ), (input.height : ℤ)⟩, input⟩
  | some bb =>
      let overcrop : ℤ := 1
      let adjusted : Rect :=
        ⟨max 0 (bb.x + overcrop), max 0 (bb.y + overcrop),
          max 1 (bb.width - overcrop * 2), max 1 (bb.height - overcrop * 2)⟩
      ⟨true, adjusted, cropBuffer input adjusted⟩

/-! ## The `processImage` pipeline (`image-processor.worker.mjs`, lines 601-858)

The pipeline is modelled as the list of canvas transitions it performs: for each
stage, the dimensions of the stage's input and output canvases and the
background the stage's freshly allocated canvas was filled with (`clearRect` =
transparent, `fillRect('white')` = white, or no new canvas at all).  The pixel
content written by the rotated-drawing resample is not representable, so the
post-rotation buffer's byte array is a parameter (`rotData`); everything the
pipeline *computes from* it (the alpha scan) is modelled exactly. -/

/-- Output formats accepted by the worker. -/
inductive Format where
  | jpeg | png | webp
  deriving DecidableEq, Repr

/-- The `options` record sent to the worker (numeric fields that the code tests
for truthiness with `> 0` or `||` are naturals, `0` meaning "absent"). -/
structure Options where
  rotation : ℚ
  cropX : ℕ
  cropY : ℕ
  cropWidth : ℕ
  cropHeight : ℕ
  resizeWidth : ℕ
  resizeHeight : ℕ
  maintainAspectRatio : Bool
  format : Format
  quality : ℕ
  shavePixels : ℕ
  useGeometricCrop : Bool
  deriving DecidableEq, Repr

/-- Names of the pipeline stages (`base` is the legacy worker's initial canvas
fill, which the consolidated worker does not have). -/
inductive StageName where
  | base | rotate | autocrop | usercrop | resize | export
  deriving DecidableEq, Repr

/-- What a stage's freshly allocated canvas is filled with before drawing:
transparent (`clearRect` or a fresh canvas), opaque white (`fillRect('white')`),
or no new canvas at all (the stage reuses the working canvas). -/
inductive Background where
  | transparent | white | reuse
  deriving DecidableEq, Repr

/-- One pipeline stage transition. -/
structure Stage where
  name : StageName
  inWidth : ℤ
  inHeight : ℤ
  outWidth : ℤ
  outHeight : ℤ
  bg : Background

/-- The working buffer after PASO 1 of `processImage` (lines 627-638): the
rotation canvas when `rotation ≠ 0` and the rotation was not skipped, otherwise
a canvas of the original size.  The allocated canvas truncates the real-valued
computed size (`OffscreenCanvas` coerces to an integer size); `rotData` stands
for its resampled RGBA content. -/
noncomputable def rotatedBuffer (img : PixelBuffer) (opts : Options)
    (rotData : List ℕ) : PixelBuffer :=
  if opts.rotation ≠ 0 ∧ ¬(|normalizeAngle opts.rotation| < 1 / 2) then
    ⟨(⌊rotCanvasWidth img.width img.height opts.rotation⌋).toNat,
      (⌊rotCanvasHeight img.width img.height opts.rotation⌋).toNat, rotData⟩
  else img

/-- PASO 2 of `processImage` (lines 640-721): the auto-crop bounding box, by the
geometric method (default) or the legacy alpha method (threshold 12 after a
rotation, 0 otherwise; the rotated path additionally compensates margins).
For every path the stage's output dimensions are the result's bounding box
(a non-success alpha result reports the full canvas and leaves it unchanged). -/
noncomputable def autoCropBox (img : PixelBuffer) (opts : Options)
    (working : PixelBuffer) : Rect :=
  let shave := if opts.shavePixels = 0 then 1 else opts.shavePixels
  if opts.useGeometricCrop then
    calculateGeometricInscribedRectangle img.width img.height opts.rotation
      (working.width : ℝ) (working.height : ℝ) shave
  else if opts.rotation ≠ 0 then
    (autoCropByAlphaWithMarginCompensation working 12).boundingBox
  else
    (autoCropByAlpha working 0).boundingBox

/-- PASO 4 of `processImage` (lines 760-800): the resized dimensions.  `x || y`
on numbers is `y` exactly when `x = 0`; `Math.round` is `round` (half-up). -/
noncomputable def resizeDims (opts : Options) (curW curH : ℤ) : ℤ × ℤ :=
  let newW : ℤ := if opts.resizeWidth = 0 then curW else opts.resizeWidth
  let newH : ℤ := if opts.resizeHeight = 0 then curH else opts.resizeHeight
  if opts.maintainAspectRatio then
    let aspect : ℝ := (curW : ℝ) / (curH : ℝ)
    if opts.resizeWidth ≠ 0 ∧ opts.resizeHeight = 0 then
      ((opts.resizeWidth : ℤ), round ((opts.resizeWidth : ℝ) / aspect))
    else if opts.resizeHeight ≠ 0 ∧ opts.resizeWidth = 0 then
      (round ((opts.resizeHeight : ℝ) * aspect), (opts.resizeHeight : ℤ))
    else if opts.resizeWidth ≠ 0 ∧ opts.resizeHeight ≠ 0 then
      let scale : ℝ := min ((opts.resizeWidth : ℝ) / curW) ((opts.resizeHeight : ℝ) / curH)
      (round ((curW : ℝ) * scale), round ((curH : ℝ) * scale))
    else (newW, newH)
  else (newW, newH)

/-- The stage trace of `processImage` of `image-processor.worker.mjs`:
rotation (PASO 1, transparent canvas), auto-crop (PASO 2, transparent),
optional user crop (PASO 3, transparent), optional resize (PASO 4,
transparent), export (PASO 5: a white-filled canvas for JPEG only, otherwise
the working canvas is exported as is). -/
noncomputable def processTrace (img : PixelBuffer) (opts : Options)
    (rotData : List ℕ) : List Stage :=
  let working1 := rotatedBuffer img opts rotData
  let s1 : Stage := ⟨.rotate, (img.width : ℤ), (img.height : ℤ),
    (working1.width : ℤ), (working1.height : ℤ), .transparent⟩
  let box := autoCropBox img opts working1
  let s2 : Stage := ⟨.autocrop, (working1.width : ℤ), (working1.height : ℤ),
    box.width, box.height, .transparent⟩
  let afterCrop : ℤ × ℤ :=
    if 0 < opts.cropWidth ∧ 0 < opts.cropHeight
    then ((opts.cropWidth : ℤ), (opts.cropHeight : ℤ)) else (box.width, box.height)
  let s3 : List Stage :=
    if 0 < opts.cropWidth ∧ 0 < opts.cropHeight then
      [⟨.usercrop, box.width, box.height, (opts.cropWidth : ℤ), (opts.cropHeight : ℤ),
        .transparent⟩]
    else []
  let afterResize : ℤ × ℤ :=
    if 0 < opts.resizeWidth ∨ 0 < opts.resizeHeight
    then resizeDims opts afterCrop.1 afterCrop.2 else afterCrop
  let s4 : List Stage :=
    if 0 < opts.resizeWidth ∨ 0 < opts.resizeHeight then
      [⟨.resize, afterCrop.1, afterCrop.2, afterResize.1, afterResize.2, .transparent⟩]
    else []
  let s5 : Stage := ⟨.export, afterResize.1, afterResize.2, afterResize.1, afterResize.2,
    if opts.format = .jpeg then .white else .reuse⟩
  s1 :: s2 :: (s3 ++ s4 ++ [s5])

/-! ## The legacy worker pipeline (`workers/image-processor.worker.ts`, lines 77-209)

The TypeScript iteration of `processImage` paints the base canvas white
(lines 88-89), and on rotation resizes the canvas and paints it white again
(lines 104-106) before rotating and before the inscribed-rectangle crop; it
never composites a background at export. -/

/-- The stage trace of the legacy `processImage` of
`workers/image-processor.worker.ts`. -/
noncomputable def tsProcessTrace (img : PixelBuffer) (opts : Options) : List Stage :=
  let s0 : Stage := ⟨.base, (img.width : ℤ), (img.height : ℤ),
    (img.width : ℤ), (img.height : ℤ), .white⟩
  let rotStages : List Stage :=
    if opts.rotation ≠ 0 then
      let newW : ℤ := ⌈(img.width : ℝ) * cosAbs opts.rotation + img.height * sinAbs opts.rotation⌉
      let newH : ℤ := ⌈(img.width : ℝ) * sinAbs opts.rotation + img.height * cosAbs opts.rotation⌉
      let inscribed := tsCalculateInscribedRectangle img.width img.height opts.rotation
      [⟨.rotate, (img.width : ℤ), (img.height : ℤ), newW, newH, .white⟩,
        ⟨.autocrop, newW, newH, inscribed.width, inscribed.height, .transparent⟩]
    else []
  let afterRot : ℤ × ℤ :=
    if opts.rotation ≠ 0 then
      let inscribed := tsCalculateInscribedRectangle img.width img.height opts.rotation
      (inscribed.width, inscribed.height)
    else ((img.width : ℤ), (img.height : ℤ))
  let s3 : List Stage :=
    if 0 < opts.cropWidth ∧ 0 < opts.cropHeight then
      [⟨.usercrop, afterRot.1, afterRot.2, (opts.cropWidth : ℤ), (opts.cropHeight : ℤ),
        .transparent⟩]
    else []
  let afterCrop : ℤ × ℤ :=
    if 0 < opts.cropWidth ∧ 0 < opts.cropHeight
    then ((opts.cropWidth : ℤ), (opts.cropHeight : ℤ)) else afterRot
  let afterResize : ℤ × ℤ :=
    if 0 < opts.resizeWidth ∨ 0 < opts.resizeHeight
    then resizeDims opts afterCrop.1 afterCrop.2 else afterCrop
  let s4 : List Stage :=
    if 0 < opts.resizeWidth ∨ 0 < opts.resizeHeight then
      [⟨.resize, afterCrop.1, afterCrop.2, afterResize.1, afterResize.2, .transparent⟩]
    else []
  let s5 : Stage := ⟨.export, afterResize.1, afterResize.2, afterResize.1, afterResize.2,
    .reuse⟩
  s0 :: (rotStages ++ s3 ++ s4 ++ [s5])

/-! ## Helper lemmas about the JavaScript remainder -/

theorem truncQ_neg (q : ℚ) : truncQ (-q) = -truncQ q := by
  unfold truncQ
  rcases lt_trichotomy q 0 with h | h | h
  · rw [if_pos (by linarith), if_neg (by linarith), Int.floor_neg]
  · simp [h]
  · rw [if_neg (by linarith), if_pos (by linarith), Int.ceil_neg]

theorem jsRem_neg (a b : ℚ) : jsRem (-a) b = -jsRem a b := by
  unfold jsRem
  rw [neg_div, truncQ_neg]
  push_cast
  ring

theorem jsRem_nonneg_bounds (a b : ℚ) (ha : 0 ≤ a) (hb : 0 < b) :
    0 ≤ jsRem a b ∧ jsRem a b < b := by
  have hq : 0 ≤ a / b := div_nonneg ha hb.le
  unfold jsRem truncQ
  rw [if_pos hq]
  constructor
  · have h1 : (⌊a / b⌋ : ℚ) ≤ a / b := Int.floor_le _
    have h2 : b * (⌊a / b⌋ : ℚ) ≤ b * (a / b) := by
      exact mul_le_mul_of_nonneg_left h1 hb.le
    rw [mul_div_cancel₀ a hb.ne'] at h2
    linarith
  · have h1 : a / b < ⌊a / b⌋ + 1 := Int.lt_floor_add_one _
    have h2 : b * (a / b) < b * ((⌊a / b⌋ : ℚ) + 1) := by
      exact mul_lt_mul_of_pos_left h1 hb
    rw [mul_div_cancel₀ a hb.ne'] at h2
    linarith

theorem jsRem_bounds (a b : ℚ) (hb : 0 < b) : -b < jsRem a b ∧ jsRem a b < b := by
  rcases le_or_lt 0 a with ha | ha
  · obtain ⟨h1, h2⟩ := jsRem_nonneg_bounds a b ha hb
    exact ⟨by linarith, h2⟩
  · have := jsRem_nonneg_bounds (-a) b (by linarith) hb
    rw [jsRem_neg] at this
    exact ⟨by linarith, by linarith⟩

/-- `normalizeAngle` differs from the input angle by an integer multiple of 360
(needed to transfer trigonometric values from the normalized angle back to the
raw angle). -/
theorem normalizeAngle_sub_int_mul (a : ℚ) :
    ∃ k : ℤ, normalizeAngle a = a - 360 * k := by
  unfold normalizeAngle jsRem
  set t1 : ℤ := truncQ (a / 360) with ht1
  set n1 : ℚ := a - 360 * t1 with hn1
  set t2 : ℤ := truncQ ((n1 + 360) / 360) with ht2
  set n2 : ℚ := n1 + 360 - 360 * t2 with hn2
  by_cases h : n2 > 180
  · refine ⟨t1 - 1 + t2 + 1, ?_⟩
    rw [if_pos h]
    push_cast
    rw [hn2, hn1]
    ring
  · refine ⟨t1 - 1 + t2, ?_⟩
    rw [if_neg h]
    push_cast
    rw [hn2, hn1]
    ring

theorem normalizeAngle_mem (a : ℚ) :
    -180 < normalizeAngle a ∧ normalizeAngle a ≤ 180 := by
  unfold normalizeAngle
  have h360 : (0 : ℚ) < 360 := by norm_num
  obtain ⟨hlo, hhi⟩ := jsRem_bounds a 360 h360
  have hnn : 0 ≤ jsRem a 360 + 360 := by linarith
  obtain ⟨h1, h2⟩ := jsRem_nonneg_bounds (jsRem a 360 + 360) 360 hnn h360
  by_cases h : jsRem (jsRem a 360 + 360) 360 > 180
  · rw [if_pos h]
    constructor <;> [linarith; linarith]
  · rw [if_neg h]
    constructor <;> [linarith; linarith]

/-! ## Claim C6: angle normalization and the sub-degree rotation no-op -/

/-- **C6**: for every finite input angle, `rotateImage` normalizes it to
`(-180, 180]` by `((a % 360) + 360) % 360` followed by subtracting 360 above
180 (the code's formula coincides with the spec's `specNormalizeAngle`), and
whenever the absolute value of the normalized angle is below 0.5° the rotation
is skipped and the source buffer is returned unchanged; in particular 360° and
359.8° are no-ops. -/
theorem rotateImage_normalizes_and_skips (a : ℚ) (buf : PixelBuffer) :
    normalizeAngle a = specNormalizeAngle a ∧
    (-180 < normalizeAngle a ∧ normalizeAngle a ≤ 180) ∧
    (|normalizeAngle a| < 1 / 2 → rotateImage buf a = .pass buf) ∧
    rotateImage buf 360 = .pass buf ∧
    rotateImage buf (1799 / 5) = .pass buf := by
  refine ⟨rfl, normalizeAngle_mem a, fun h => ?_, ?_, ?_⟩
  · unfold rotateImage
    rw [if_pos h]
  · unfold rotateImage
    rw [if_pos (by norm_num [normalizeAngle, jsRem, truncQ])]
  · unfold rotateImage
    rw [if_pos (by norm_num [normalizeAngle, jsRem, truncQ, abs_lt])]

/-- Witness for C6: at the concrete angle 359.8° (= 1799/5) the normalized
angle is −0.2°, below the 0.5° threshold, and `rotateImage` passes the source
buffer through unchanged. -/
theorem rotateImage_normalizes_and_skips_witness :
    |normalizeAngle (1799 / 5)| < 1 / 2 ∧
      rotateImage ⟨1, 1, [0, 0, 0, 0]⟩ (1799 / 5) = .pass ⟨1, 1, [0, 0, 0, 0]⟩ := by
  have h : |normalizeAngle (1799 / 5)| < 1 / 2 := by
    norm_num [normalizeAngle, jsRem, truncQ, abs_lt]
  exact ⟨h, (rotateImage_normalizes_and_skips (1799 / 5) ⟨1, 1, [0, 0, 0, 0]⟩).2.2.1 h⟩

/-! ## Claim C3: determinism of the geometric inscribed-rectangle computation -/

/-- **C3**: `calculateGeometricInscribedRectangle` is a pure function of
exactly its six inputs (original width, original height, angle, canvas width,
canvas height, shave): two invocations with identical inputs return identical
rectangles.  The embedded definition exposes every datum the source function
reads — no pixel content, time or randomness occurs in it. -/
theorem geometric_crop_deterministic
    (w₁ h₁ : ℕ) (θ₁ : ℚ) (cw₁ ch₁ : ℝ) (s₁ : ℕ)
    (w₂ h₂ : ℕ) (θ₂ : ℚ) (cw₂ ch₂ : ℝ) (s₂ : ℕ)
    (hw : w₁ = w₂) (hh : h₁ = h₂) (hθ : θ₁ = θ₂) (hcw : cw₁ = cw₂)
    (hch : ch₁ = ch₂) (hs : s₁ = s₂) :
    calculateGeometricInscribedRectangle w₁ h₁ θ₁ cw₁ ch₁ s₁ =
      calculateGeometricInscribedRectangle w₂ h₂ θ₂ cw₂ ch₂ s₂ := by
  rw [hw, hh, hθ, hcw, hch, hs]

/-- Witness for C3: two textually separate invocations at `(100, 200, 90°,
canvas 400×400, shave 0)` return the same rectangle. -/
theorem geometric_crop_deterministic_witness :
    calculateGeometricInscribedRectangle 100 200 90 400 400 0 =
      calculateGeometricInscribedRectangle 100 200 90 400 400 0 :=
  geometric_crop_deterministic 100 200 90 400 400 0 100 200 90 400 400 0
    rfl rfl rfl rfl rfl rfl

/-! ## Claim C8: the no-content fallback of the alpha auto-crop -/

/-- **C8**: when the alpha scan finds zero qualifying pixels
(`calculateAlphaBoundingBox` returns `null`), `autoCropByAlpha` returns a
non-success result whose bounding box is the full canvas `{0, 0, width,
height}` and whose canvas is the unmodified input.  `autoCropByAlpha` is a
total function — the condition produces this fallback value, never an
exception, and the reported box has the full (hence non-degenerate) canvas
size. -/
theorem autocrop_alpha_no_content (buf : PixelBuffer) (t : ℕ)
    (h : calculateAlphaBoundingBox buf.data buf.width buf.height t = none) :
    autoCropByAlpha buf t =
      ⟨false, ⟨0, 0, (buf.width : ℤ), (buf.height : ℤ)⟩, buf⟩ := by
  unfold autoCropByAlpha
  rw [h]

/-- Witness for C8: a fully transparent 2×2 buffer scanned at threshold 0 has
no qualifying pixel, and the auto-crop returns the non-success full-canvas
fallback with the input unchanged. -/
theorem autocrop_alpha_no_content_witness :
    calculateAlphaBoundingBox (List.replicate 16 0) 2 2 0 = none ∧
      autoCropByAlpha ⟨2, 2, List.replicate 16 0⟩ 0 =
        ⟨false, ⟨0, 0, 2, 2⟩, ⟨2, 2, List.replicate 16 0⟩⟩ :=
  ⟨by decide, autocrop_alpha_no_content ⟨2, 2, List.replicate 16 0⟩ 0 (by decide)⟩

/-! ## Claims C1 and C2: evaluations of the inscribed-rectangle geometry -/

theorem cosAbs_90 : cosAbs 90 = 0 := by
  unfold cosAbs degRad
  rw [show ((90 : ℚ) : ℝ) * Real.pi / 180 = Real.pi / 2 by push_cast; ring,
    Real.cos_pi_div_two, abs_zero]

theorem sinAbs_90 : sinAbs 90 = 1 := by
  unfold sinAbs degRad
  rw [show ((90 : ℚ) : ℝ) * Real.pi / 180 = Real.pi / 2 by push_cast; ring,
    Real.sin_pi_div_two, abs_one]

theorem cosAbs_45 : cosAbs 45 = Real.sqrt 2 / 2 := by
  unfold cosAbs degRad
  rw [show ((45 : ℚ) : ℝ) * Real.pi / 180 = Real.pi / 4 by push_cast; ring,
    Real.cos_pi_div_four, abs_of_nonneg (by positivity)]

theorem sinAbs_45 : sinAbs 45 = Real.sqrt 2 / 2 := by
  unfold sinAbs degRad
  rw [show ((45 : ℚ) : ℝ) * Real.pi / 180 = Real.pi / 4 by push_cast; ring,
    Real.sin_pi_div_four, abs_of_nonneg (by positivity)]

/-- **C1** (code evaluation at the failing input): the consolidated worker's
`calculateGeometricInscribedRectangle`, called with original size 100×200,
angle 90° and shave 0, does *not* return the unreduced 100×200 (or swapped
200×100) rectangle demanded by the spec's 90° special case: it has no special
case for angles that are multiples of 90° but not of 180°, so the
`factor = min(w/(w·cos+h·sin), h/(w·sin+h·cos)) = min(1/2, 2) = 1/2` formula
applies and the result is a halved 50×100 rectangle.  The repository's own
legacy implementation (`calculateInscribedRectangle` of
`workers/image-processor.worker.ts`), evaluated alongside, does special-case
`angle % 90 === 0` and returns the full 100×200. -/
theorem inscribed_rectangle_90_code_evaluation (cw ch : ℝ) :
    (calculateGeometricInscribedRectangle 100 200 90 cw ch 0).width = 50 ∧
    (calculateGeometricInscribedRectangle 100 200 90 cw ch 0).height = 100 ∧
    (tsCalculateInscribedRectangle 100 200 90).width = 100 ∧
    (tsCalculateInscribedRectangle 100 200 90).height = 200 := by
  have hn : geoNormalizedAngle 90 = 90 := by
    norm_num [geoNormalizedAngle, jsRem, truncQ]
  have hts : jsRem 90 90 = 0 := by norm_num [jsRem, truncQ]
  have hne : ¬((90 : ℚ) = 0) := by norm_num
  unfold calculateGeometricInscribedRectangle tsCalculateInscribedRectangle
  rw [hn, hts]
  simp only [if_pos rfl, if_neg hne, cosAbs_90, sinAbs_90]
  norm_num

/-- **C2**: for a square 1000×1000 input rotated by 45° with shave 2 under the
geometric crop method, the inscribed rectangle is exactly 703×703 (the code
computes `factor = 1/√2`, `floor(1000/√2) = 707`, minus `2·shave = 4`),
independent of the expanded canvas dimensions. -/
theorem inscribed_rectangle_45_scenario (cw ch : ℝ) :
    (calculateGeometricInscribedRectangle 1000 1000 45 cw ch 2).width = 703 ∧
    (calculateGeometricInscribedRectangle 1000 1000 45 cw ch 2).height = 703 := by
  have hn : geoNormalizedAngle 45 = 45 := by
    norm_num [geoNormalizedAngle, jsRem, truncQ]
  have hne : ¬((45 : ℚ) = 0) := by norm_num
  have h2 : Real.sqrt 2 ^ 2 = 2 := Real.sq_sqrt (by norm_num)
  have h2nn : (0 : ℝ) ≤ Real.sqrt 2 := Real.sqrt_nonneg 2
  have h2pos : (0 : ℝ) < Real.sqrt 2 := by nlinarith
  have hden : (1000 : ℝ) * (Real.sqrt 2 / 2) + 1000 * (Real.sqrt 2 / 2) =
      1000 * Real.sqrt 2 := by ring
  have hfrac : (1000 : ℝ) / (1000 * Real.sqrt 2) = Real.sqrt 2 / 2 := by
    rw [div_eq_iff (by positivity)]
    nlinarith
  have hmin : min ((1000 : ℝ) * (Real.sqrt 2 / 2)) 1000 = 500 * Real.sqrt 2 := by
    rw [min_eq_left (by nlinarith)]
    ring
  have hfloor : (⌊(500 : ℝ) * Real.sqrt 2⌋ : ℤ) = 707 := by
    rw [Int.floor_eq_iff]
    constructor
    · push_cast
      nlinarith
    · push_cast
      nlinarith
  have hA : Real.sqrt 2 / 2 + Real.sqrt 2 / 2 ≠ 0 := by positivity
  unfold calculateGeometricInscribedRectangle
  rw [hn]
  simp only [if_neg hne, cosAbs_45, sinAbs_45]
  push_cast
  rw [if_neg hA, min_self, hden, hfrac, hmin, hfloor]
  constructor <;> rfl

/-! ## Claim C5: monotonicity in the shave margin -/

/-- **C5**: for fixed original dimensions, angle and canvas, increasing
`shavePixels` strictly decreases each output dimension of the geometric
inscribed rectangle, except that a dimension at the 1-pixel floor stays 1
(both branches of the code compute `max(1, base - 2*shave)` with `base`
independent of the shave). -/
theorem inscribed_rectangle_shave_monotone (w h : ℕ) (θ : ℚ) (cw ch : ℝ)
    (s₁ s₂ : ℕ) (hs : s₁ < s₂) :
    ((calculateGeometricInscribedRectangle w h θ cw ch s₂).width <
        (calculateGeometricInscribedRectangle w h θ cw ch s₁).width ∨
      ((calculateGeometricInscribedRectangle w h θ cw ch s₁).width = 1 ∧
        (calculateGeometricInscribedRectangle w h θ cw ch s₂).width = 1)) ∧
    ((calculateGeometricInscribedRectangle w h θ cw ch s₂).height <
        (calculateGeometricInscribedRectangle w h θ cw ch s₁).height ∨
      ((calculateGeometricInscribedRectangle w h θ cw ch s₁).height = 1 ∧
        (calculateGeometricInscribedRectangle w h θ cw ch s₂).height = 1)) := by
  unfold calculateGeometricInscribedRectangle
  by_cases h0 : geoNormalizedAngle θ = 0
  · simp only [if_pos h0]
    constructor <;> omega
  · simp only [if_neg h0]
    constructor <;> omega

/-- Witness for C5: at 0° on a 100×50 image, moving the shave from 1 to 3
shrinks the computed dimensions from 98×48 to 94×44 (strictly, in both axes). -/
theorem inscribed_rectangle_shave_monotone_witness :
    (1 : ℕ) < 3 ∧
    ((calculateGeometricInscribedRectangle 100 50 0 100 50 3).width <
        (calculateGeometricInscribedRectangle 100 50 0 100 50 1).width ∨
      ((calculateGeometricInscribedRectangle 100 50 0 100 50 1).width = 1 ∧
        (calculateGeometricInscribedRectangle 100 50 0 100 50 3).width = 1)) ∧
    ((calculateGeometricInscribedRectangle 100 50 0 100 50 3).height <
        (calculateGeometricInscribedRectangle 100 50 0 100 50 1).height ∨
      ((calculateGeometricInscribedRectangle 100 50 0 100 50 1).height = 1 ∧
        (calculateGeometricInscribedRectangle 100 50 0 100 50 3).height = 1)) :=
  ⟨by norm_num,
    (inscribed_rectangle_shave_monotone 100 50 0 100 50 1 3 (by norm_num)).1,
    (inscribed_rectangle_shave_monotone 100 50 0 100 50 1 3 (by norm_num)).2⟩

/-! ## Claim C7: size of the expanded rotation canvas -/

/-- The normalized angle has the same `|cos|` as the raw angle (they differ by
an integer multiple of 360°). -/
theorem cosAbs_normalizeAngle (a : ℚ) : cosAbs (normalizeAngle a) = cosAbs a := by
  obtain ⟨k, hk⟩ := normalizeAngle_sub_int_mul a
  unfold cosAbs degRad
  rw [hk]
  congr 1
  have hshift : ((a - 360 * k : ℚ) : ℝ) * Real.pi / 180 =
      (a : ℝ) * Real.pi / 180 + (-k : ℤ) * (2 * Real.pi) := by
    push_cast
    ring
  rw [hshift, Real.cos_add_int_mul_two_pi]

/-- The normalized angle has the same `|sin|` as the raw angle. -/
theorem sinAbs_normalizeAngle (a : ℚ) : sinAbs (normalizeAngle a) = sinAbs a := by
  obtain ⟨k, hk⟩ := normalizeAngle_sub_int_mul a
  unfold sinAbs degRad
  rw [hk]
  congr 1
  have hshift : ((a - 360 * k : ℚ) : ℝ) * Real.pi / 180 =
      (a : ℝ) * Real.pi / 180 + (-k : ℤ) * (2 * Real.pi) := by
    push_cast
    ring
  rw [hshift, Real.sin_add_int_mul_two_pi]

/-- **C7**: whenever the rotation is not skipped, the expanded canvas
`rotateImage` allocates has exactly the size the spec prescribes:
`ceil(w0·|cos θ| + h0·|sin θ|) × ceil(w0·|sin θ| + h0·|cos θ|)` plus a margin
of `max(20, 0.05·min(w0,h0))` pixels on each side (`2·margin` per dimension),
with the trigonometry of the raw input angle (the code evaluates it at the
normalized angle, which differs by a multiple of 360° and so has the same
`|cos|` and `|sin|`). -/
theorem rotate_canvas_size (buf : PixelBuffer) (a : ℚ)
    (h : ¬(|normalizeAngle a| < 1 / 2)) :
    rotateImage buf a =
      .rotated (specCanvasW buf.width buf.height a) (specCanvasH buf.width buf.height a) := by
  unfold rotateImage
  rw [if_neg h]
  unfold rotCanvasWidth rotCanvasHeight specCanvasW specCanvasH expandedWidth
    expandedHeight specBoundW specBoundH rotationMargin
  rw [cosAbs_normalizeAngle, sinAbs_normalizeAngle]
  ring_nf

/-- Witness for C7: at 45° (not skipped) on a 4×4 image, the allocated canvas
has exactly the spec's bound-plus-margin size. -/
theorem rotate_canvas_size_witness :
    ¬(|normalizeAngle 45| < 1 / 2) ∧
      rotateImage ⟨4, 4, []⟩ 45 = .rotated (specCanvasW 4 4 45) (specCanvasH 4 4 45) := by
  have h : ¬(|normalizeAngle 45| < 1 / 2) := by
    norm_num [normalizeAngle, jsRem, truncQ, abs_lt]
  exact ⟨h, rotate_canvas_size ⟨4, 4, []⟩ 45 h⟩

/-! ## Claim C4: when the opaque background is composited -/

/-- A worker invocation with a 15° rotation, no manual crop and no resize, at
the given output format (the worker defaults `shavePixels = 1`,
`useGeometricCrop = true`). -/
def rotateOnlyOptions (f : Format) : Options :=
  ⟨15, 0, 0, 0, 0, 0, 0, false, f, 90, 1, true⟩

/-- **C4** (evaluation of both pipelines at a rotated invocation): in the
consolidated worker (`image-processor.worker.mjs`), every canvas allocated
before the export stage — the rotation canvas included — is cleared fully
transparent, and an opaque white fill happens exactly at the export stage and
only for JPEG (for PNG the working canvas is exported as is).  The legacy
worker (`workers/image-processor.worker.ts`), by contrast, fills its base
canvas *and* its rotation canvas opaque white before the inscribed-rectangle
auto-crop, and never composites at export — contradicting the invariant. -/
theorem background_compositing_timing :
    List.map Stage.bg (processTrace ⟨100, 100, []⟩ (rotateOnlyOptions .jpeg) []) =
      [.transparent, .transparent, .white] ∧
    List.map Stage.bg (processTrace ⟨100, 100, []⟩ (rotateOnlyOptions .png) []) =
      [.transparent, .transparent, .reuse] ∧
    List.map Stage.bg (tsProcessTrace ⟨100, 100, []⟩ (rotateOnlyOptions .png)) =
      [.white, .white, .transparent, .reuse] := by
  have h15 : ((15 : ℚ) ≠ 0) := by norm_num
  refine ⟨?_, ?_, ?_⟩ <;>
    simp [processTrace, tsProcessTrace, rotateOnlyOptions, h15]

/-! ## Structural lemmas about the alpha scan -/

theorem mem_coords {x y w h : ℕ} : (x, y) ∈ coords w h ↔ x < w ∧ y < h := by
  unfold coords
  simp only [List.mem_flatMap, List.mem_map, List.mem_range, Prod.mk.injEq]
  constructor
  · rintro ⟨y', hy', x', hx', rfl, rfl⟩
    exact ⟨hx', hy'⟩
  · rintro ⟨hx, hy⟩
    exact ⟨y, hy, x, hx, rfl, rfl⟩

/-- Folding more pixels can only extend the running extrema. -/
theorem scanFoldl_extends (data : List ℕ) (w t : ℕ) (l : List (ℕ × ℕ)) :
    ∀ st : ScanState,
      (l.foldl (scanStep data w t) st).minX ≤ st.minX ∧
      (l.foldl (scanStep data w t) st).minY ≤ st.minY ∧
      st.maxX ≤ (l.foldl (scanStep data w t) st).maxX ∧
      st.maxY ≤ (l.foldl (scanStep data w t) st).maxY := by
  induction l with
  | nil => exact fun st => ⟨le_refl _, le_refl _, le_refl _, le_refl _⟩
  | cons p l ih =>
      intro st
      obtain ⟨h1, h2, h3, h4⟩ := ih (scanStep data w t st p)
      refine ⟨le_trans h1 ?_, le_trans h2 ?_, le_trans ?_ h3, le_trans ?_ h4⟩ <;>
        · unfold scanStep
          split <;> simp [min_le_left, le_max_left]

/-- Every valid pixel of the folded list is inside the final extrema. -/
theorem scanFoldl_reaches (data : List ℕ) (w t : ℕ) (l : List (ℕ × ℕ)) :
    ∀ st : ScanState, ∀ p ∈ l, validPixel data w t p.1 p.2 = true →
      (l.foldl (scanStep data w t) st).minX ≤ p.1 ∧
      (l.foldl (scanStep data w t) st).minY ≤ p.2 ∧
      (p.1 : ℤ) ≤ (l.foldl (scanStep data w t) st).maxX ∧
      (p.2 : ℤ) ≤ (l.foldl (scanStep data w t) st).maxY := by
  induction l with
  | nil => intro st p hp; exact absurd hp (List.not_mem_nil p)
  | cons q l ih =>
      intro st p hp hv
      rcases List.mem_cons.1 hp with rfl | hp'
      · obtain ⟨h1, h2, h3, h4⟩ := scanFoldl_extends data w t l (scanStep data w t st p)
        have hstep : (scanStep data w t st p).minX ≤ p.1 ∧
            (scanStep data w t st p).minY ≤ p.2 ∧
            (p.1 : ℤ) ≤ (scanStep data w t st p).maxX ∧
            (p.2 : ℤ) ≤ (scanStep data w t st p).maxY := by
          unfold scanStep
          rw [if_pos hv]
          exact ⟨min_le_right _ _, min_le_right _ _, le_max_right _ _, le_max_right _ _⟩
        exact ⟨le_trans h1 hstep.1, le_trans h2 hstep.2.1,
          le_trans hstep.2.2.1 h3, le_trans hstep.2.2.2 h4⟩
      · exact ih (scanStep data w t st q) p hp' hv

/-- The extrema stay inside the given window as long as every folded pixel and
the initial state are inside it. -/
theorem scanFoldl_bounded (data : List ℕ) (w t : ℕ) (l : List (ℕ × ℕ))
    (hiX hiY : ℤ) :
    ∀ st : ScanState,
      (∀ p ∈ l, (p.1 : ℤ) ≤ hiX ∧ (p.2 : ℤ) ≤ hiY) →
      0 ≤ st.minX → 0 ≤ st.minY → st.maxX ≤ hiX → st.maxY ≤ hiY →
      0 ≤ (l.foldl (scanStep data w t) st).minX ∧
      0 ≤ (l.foldl (scanStep data w t) st).minY ∧
      (l.foldl (scanStep data w t) st).maxX ≤ hiX ∧
      (l.foldl (scanStep data w t) st).maxY ≤ hiY := by
  induction l with
  | nil => exact fun st _ h1 h2 h3 h4 => ⟨h1, h2, h3, h4⟩
  | cons p l ih =>
      intro st hl h1 h2 h3 h4
      obtain ⟨hp1, hp2⟩ := hl p (List.mem_cons_self p l)
      refine ih (scanStep data w t st p) (fun q hq => hl q (List.mem_cons_of_mem p hq))
        ?_ ?_ ?_ ?_ <;>
        · unfold scanStep
          split
          · simp only [ScanState.minX, ScanState.minY, ScanState.maxX, ScanState.maxY]
            omega
          · omega

/-! ## Structural lemmas about the refinement strips -/

theorem stripForward_ge (susp : ℤ → Bool) (bound : ℤ) :
    ∀ (fuel : ℕ) (y : ℤ), y ≤ stripForward susp bound fuel y := by
  intro fuel
  induction fuel with
  | zero => exact fun y => le_refl y
  | succ n ih =>
      intro y
      unfold stripForward
      split
      · exact le_refl y
      · split
        · exact le_trans (by omega) (ih (y + 1))
        · exact le_refl y

theorem stripForward_le (susp : ℤ → Bool) (bound : ℤ) :
    ∀ (fuel : ℕ) (y : ℤ), y ≤ bound + 1 → stripForward susp bound fuel y ≤ bound + 1 := by
  intro fuel
  induction fuel with
  | zero => exact fun y hy => hy
  | succ n ih =>
      intro y hy
      unfold stripForward
      split
      · exact hy
      · split
        · exact ih (y + 1) (by omega)
        · exact hy

theorem stripForward_break (susp : ℤ → Bool) (bound : ℤ) (fuel : ℕ) (y : ℤ)
    (h : susp y = false) : stripForward susp bound fuel y = y := by
  cases fuel with
  | zero => rfl
  | succ n =>
      unfold stripForward
      split
      · rfl
      · rw [h]
        rfl

theorem stripBackward_le (susp : ℤ → Bool) (bound : ℤ) :
    ∀ (fuel : ℕ) (y : ℤ), stripBackward susp bound fuel y ≤ y := by
  intro fuel
  induction fuel with
  | zero => exact fun y => le_refl y
  | succ n ih =>
      intro y
      unfold stripBackward
      split
      · exact le_refl y
      · split
        · exact le_trans (ih (y - 1)) (by omega)
        · exact le_refl y

theorem stripBackward_ge (susp : ℤ → Bool) (bound : ℤ) :
    ∀ (fuel : ℕ) (y : ℤ), bound - 1 ≤ y → bound - 1 ≤ stripBackward susp bound fuel y := by
  intro fuel
  induction fuel with
  | zero => exact fun y hy => hy
  | succ n ih =>
      intro y hy
      unfold stripBackward
      split
      · exact hy
      · split
        · exact ih (y - 1) (by omega)
        · exact hy

theorem stripBackward_break (susp : ℤ → Bool) (bound : ℤ) (fuel : ℕ) (y : ℤ)
    (h : susp y = false) : stripBackward susp bound fuel y = y := by
  cases fuel with
  | zero => rfl
  | succ n =>
      unfold stripBackward
      split
      · rfl
      · rw [h]
        rfl

theorem scanFold_bounds (data : List ℕ) (w h t : ℕ) :
    0 ≤ (scanFold data w h t).minX ∧ 0 ≤ (scanFold data w h t).minY ∧
    (scanFold data w h t).maxX ≤ (w : ℤ) - 1 ∧
    (scanFold data w h t).maxY ≤ (h : ℤ) - 1 := by
  unfold scanFold
  refine scanFoldl_bounded data w t (coords w h) ((w : ℤ) - 1) ((h : ℤ) - 1)
    ⟨(w : ℤ), (h : ℤ), -1, -1⟩ ?_ ?_ ?_ ?_ ?_
  · rintro ⟨x, y⟩ hp
    obtain ⟨hx, hy⟩ := mem_coords.1 hp
    constructor <;> · simp only []; omega
  · simp only []; omega
  · simp only []; omega
  · simp only []; omega
  · simp only []; omega

/-- The refinement pass only moves the box's top-left corner down-right,
keeps its far edges within the input box, and clamps both dimensions to at
least 1. -/
theorem refineMinY_ge (data : List ℕ) (w : ℕ) (bbox : Rect) :
    bbox.y ≤ refineMinY data w bbox :=
  stripForward_ge _ _ _ _

theorem refineMaxY_le (data : List ℕ) (w : ℕ) (bbox : Rect) :
    refineMaxY data w bbox ≤ bbox.y + bbox.height - 1 :=
  stripBackward_le _ _ _ _

theorem refineMaxY_ge (data : List ℕ) (w : ℕ) (bbox : Rect)
    (hh : 0 ≤ bbox.height) :
    refineMinY data w bbox - 1 ≤ refineMaxY data w bbox :=
  stripBackward_ge _ _ _ _ (by
    have h2 : refineMinY data w bbox ≤ bbox.y + bbox.height - 1 + 1 :=
      stripForward_le _ _ _ _ (by omega)
    omega)

theorem refineMinX_ge (data : List ℕ) (w : ℕ) (bbox : Rect) :
    bbox.x ≤ refineMinX data w bbox :=
  stripForward_ge _ _ _ _

theorem refineMaxX_le (data : List ℕ) (w : ℕ) (bbox : Rect) :
    refineMaxX data w bbox ≤ bbox.x + bbox.width - 1 :=
  stripBackward_le _ _ _ _

/-- The refinement pass only moves the box's top-left corner down-right, keeps
its far edges within the input box, and clamps both dimensions to at least 1. -/
theorem refine_bounds (data : List ℕ) (w : ℕ) (bbox : Rect) :
    bbox.x ≤ (refineBoundingBox data w bbox).x ∧
    bbox.y ≤ (refineBoundingBox data w bbox).y ∧
    1 ≤ (refineBoundingBox data w bbox).width ∧
    (refineBoundingBox data w bbox).width ≤ max 1 bbox.width ∧
    1 ≤ (refineBoundingBox data w bbox).height ∧
    (refineBoundingBox data w bbox).height ≤ max 1 bbox.height := by
  have h1 := refineMinY_ge data w bbox
  have h2 := refineMaxY_le data w bbox
  have h3 := refineMinX_ge data w bbox
  have h4 := refineMaxX_le data w bbox
  simp only [refineBoundingBox]
  refine ⟨h3, h1, ?_, ?_, ?_, ?_⟩ <;> omega

/-- Dimensions of a successful scan result: the refined bounding box always has
dimensions at least 1 and at most the scanned canvas's dimensions. -/
theorem alphaBox_dims (data : List ℕ) (w h t : ℕ) (hw : 1 ≤ w) (hh : 1 ≤ h)
    (bb : Rect) (hbb : calculateAlphaBoundingBox data w h t = some bb) :
    1 ≤ bb.width ∧ bb.width ≤ (w : ℤ) ∧ 1 ≤ bb.height ∧ bb.height ≤ (h : ℤ) := by
  unfold calculateAlphaBoundingBox at hbb
  by_cases hdeg : (scanFold data w h t).maxX = -1 ∨ (scanFold data w h t).maxY = -1
  · rw [if_pos hdeg] at hbb
    cases hbb
  · rw [if_neg hdeg] at hbb
    obtain ⟨h0, h1, h2, h3⟩ := scanFold_bounds data w h t
    obtain ⟨r1, r2, r3, r4, r5, r6⟩ := refine_bounds data w
      ⟨(scanFold data w h t).minX, (scanFold data w h t).minY,
        (scanFold data w h t).maxX - (scanFold data w h t).minX + 1,
        (scanFold data w h t).maxY - (scanFold data w h t).minY + 1⟩
    have hbeq : bb = refineBoundingBox data w
        ⟨(scanFold data w h t).minX, (scanFold data w h t).minY,
          (scanFold data w h t).maxX - (scanFold data w h t).minX + 1,
          (scanFold data w h t).maxY - (scanFold data w h t).minY + 1⟩ :=
      (Option.some.inj hbb).symm
    rw [hbeq]
    simp only [] at r1 r2 r3 r4 r5 r6 ⊢
    omega

/-- The box reported by `autoCropByAlpha` has dimensions between 1 and the
input canvas's dimensions (the no-content fallback reports the full canvas). -/
theorem autoCropByAlpha_box (buf : PixelBuffer) (t : ℕ)
    (hw : 1 ≤ buf.width) (hh : 1 ≤ buf.height) :
    1 ≤ (autoCropByAlpha buf t).boundingBox.width ∧
    (autoCropByAlpha buf t).boundingBox.width ≤ (buf.width : ℤ) ∧
    1 ≤ (autoCropByAlpha buf t).boundingBox.height ∧
    (autoCropByAlpha buf t).boundingBox.height ≤ (buf.height : ℤ) := by
  unfold autoCropByAlpha
  cases hbb : calculateAlphaBoundingBox buf.data buf.width buf.height t with
  | none =>
      simp only []
      refine ⟨by omega, le_refl _, by omega, le_refl _⟩
  | some bb =>
      simp only []
      exact alphaBox_dims buf.data buf.width buf.height t hw hh bb hbb

/-- Same bounds for the margin-compensating variant (its overcrop only
shrinks the scanned box, with the same 1-pixel clamps). -/
theorem autoCropByAlphaWithMarginCompensation_box (buf : PixelBuffer) (t : ℕ)
    (hw : 1 ≤ buf.width) (hh : 1 ≤ buf.height) :
    1 ≤ (autoCropByAlphaWithMarginCompensation buf t).boundingBox.width ∧
    (autoCropByAlphaWithMarginCompensation buf t).boundingBox.width ≤ (buf.width : ℤ) ∧
    1 ≤ (autoCropByAlphaWithMarginCompensation buf t).boundingBox.height ∧
    (autoCropByAlphaWithMarginCompensation buf t).boundingBox.height ≤ (buf.height : ℤ) := by
  unfold autoCropByAlphaWithMarginCompensation
  cases hbb : calculateAlphaBoundingBox buf.data buf.width buf.height t with
  | none =>
      simp only []
      refine ⟨by omega, le_refl _, by omega, le_refl _⟩
  | some bb =>
      obtain ⟨b1, b2, b3, b4⟩ := alphaBox_dims buf.data buf.width buf.height t hw hh bb hbb
      simp only []
      refine ⟨by omega, by omega, by omega, by omega⟩

/-- The geometric inscribed rectangle has dimensions between 1 and the original
image's dimensions (the code clamps to the original size explicitly). -/
theorem geometricBox_dims (w h : ℕ) (θ : ℚ) (cw ch : ℝ) (s : ℕ)
    (hw : 1 ≤ w) (hh : 1 ≤ h) :
    1 ≤ (calculateGeometricInscribedRectangle w h θ cw ch s).width ∧
    (calculateGeometricInscribedRectangle w h θ cw ch s).width ≤ (w : ℤ) ∧
    1 ≤ (calculateGeometricInscribedRectangle w h θ cw ch s).height ∧
    (calculateGeometricInscribedRectangle w h θ cw ch s).height ≤ (h : ℤ) := by
  have hwfloor : ∀ x : ℝ, x ≤ (w : ℝ) → ⌊x⌋ ≤ (w : ℤ) := by
    intro x hx
    calc ⌊x⌋ ≤ ⌊(w : ℝ)⌋ := Int.floor_le_floor hx
      _ = (w : ℤ) := Int.floor_natCast w
  have hhfloor : ∀ x : ℝ, x ≤ (h : ℝ) → ⌊x⌋ ≤ (h : ℤ) := by
    intro x hx
    calc ⌊x⌋ ≤ ⌊(h : ℝ)⌋ := Int.floor_le_floor hx
      _ = (h : ℤ) := Int.floor_natCast h
  unfold calculateGeometricInscribedRectangle
  by_cases h0 : geoNormalizedAngle θ = 0
  · simp only [if_pos h0]
    refine ⟨by omega, by omega, by omega, by omega⟩
  · simp only [if_neg h0]
    by_cases hcs : cosAbs (geoNormalizedAngle θ) + sinAbs (geoNormalizedAngle θ) = 0
    · simp only [if_pos hcs]
      have hmin : min (w : ℝ) (h : ℝ) * (7 / 10) ≤ min (w : ℝ) (h : ℝ) :=
        mul_le_of_le_one_right (le_min (by positivity) (by positivity)) (by norm_num)
      have hfw := hwfloor _ (le_trans hmin (min_le_left _ _))
      have hfh := hhfloor _ (le_trans hmin (min_le_right _ _))
      refine ⟨le_max_left _ _, by omega, le_max_left _ _, by omega⟩
    · simp only [if_neg hcs]
      have hfw := hwfloor _ (min_le_right
        ((w : ℝ) * min ((w : ℝ) / ((w : ℝ) * cosAbs (geoNormalizedAngle θ) +
            (h : ℝ) * sinAbs (geoNormalizedAngle θ)))
          ((h : ℝ) / ((w : ℝ) * sinAbs (geoNormalizedAngle θ) +
            (h : ℝ) * cosAbs (geoNormalizedAngle θ)))) (w : ℝ))
      have hfh := hhfloor _ (min_le_right
        ((h : ℝ) * min ((w : ℝ) / ((w : ℝ) * cosAbs (geoNormalizedAngle θ) +
            (h : ℝ) * sinAbs (geoNormalizedAngle θ)))
          ((h : ℝ) / ((w : ℝ) * sinAbs (geoNormalizedAngle θ) +
            (h : ℝ) * cosAbs (geoNormalizedAngle θ)))) (h : ℝ))
      refine ⟨le_max_left _ _, by omega, le_max_left _ _, by omega⟩

/-- The rotation canvas is at least 40 pixels in each dimension and its pixel
area is at least the original image's area: the ceiling of the rotated bounding
box already has area at least `w·h`, and the margins only add to it. -/
theorem rotCanvas_area (w h : ℕ) (a : ℚ) (hw : 1 ≤ w) (hh : 1 ≤ h) :
    40 ≤ ⌊rotCanvasWidth w h a⌋ ∧ 40 ≤ ⌊rotCanvasHeight w h a⌋ ∧
    (w : ℤ) * h ≤ ⌊rotCanvasWidth w h a⌋ * ⌊rotCanvasHeight w h a⌋ := by
  have hc : 0 ≤ cosAbs (normalizeAngle a) := abs_nonneg _
  have hs : 0 ≤ sinAbs (normalizeAngle a) := abs_nonneg _
  have hcs : cosAbs (normalizeAngle a) ^ 2 + sinAbs (normalizeAngle a) ^ 2 = 1 := by
    unfold cosAbs sinAbs
    rw [sq_abs, sq_abs]
    exact Real.cos_sq_add_sin_sq _
  set c := cosAbs (normalizeAngle a)
  set sv := sinAbs (normalizeAngle a)
  have hm : (20 : ℝ) ≤ rotationMargin w h := le_max_left _ _
  have hEW : (w : ℝ) * c + h * sv ≤ (expandedWidth w h a : ℝ) := Int.le_ceil _
  have hEH : (w : ℝ) * sv + h * c ≤ (expandedHeight w h a : ℝ) := Int.le_ceil _
  have hEWnn : 0 ≤ expandedWidth w h a := Int.ceil_nonneg (by positivity)
  have hEHnn : 0 ≤ expandedHeight w h a := Int.ceil_nonneg (by positivity)
  have hfw : ⌊rotCanvasWidth w h a⌋ = expandedWidth w h a + ⌊rotationMargin w h * 2⌋ := by
    unfold rotCanvasWidth
    rw [add_comm, Int.floor_add_int]
    exact add_comm _ _
  have hfh : ⌊rotCanvasHeight w h a⌋ = expandedHeight w h a + ⌊rotationMargin w h * 2⌋ := by
    unfold rotCanvasHeight
    rw [add_comm, Int.floor_add_int]
    exact add_comm _ _
  have hfm : (40 : ℤ) ≤ ⌊rotationMargin w h * 2⌋ := by
    rw [Int.le_floor]
    push_cast
    linarith
  refine ⟨by omega, by omega, ?_⟩
  have hAB : (w : ℝ) * h ≤ ((w : ℝ) * c + h * sv) * ((w : ℝ) * sv + h * c) := by
    have key : 0 ≤ c * sv * ((w : ℝ) ^ 2 + (h : ℝ) ^ 2) := by positivity
    have hwh : (w : ℝ) * h * (c ^ 2 + sv ^ 2) = (w : ℝ) * h := by
      rw [hcs]
      ring
    nlinarith [key, hwh]
  have hcast : ((w : ℤ) * h : ℝ) ≤
      ((⌊rotCanvasWidth w h a⌋ * ⌊rotCanvasHeight w h a⌋ : ℤ) : ℝ) := by
    push_cast [hfw, hfh]
    have hA : (0 : ℝ) ≤ (w : ℝ) * c + h * sv := by positivity
    have hB : (0 : ℝ) ≤ (w : ℝ) * sv + h * c := by positivity
    have hfmR : (40 : ℝ) ≤ (⌊rotationMargin w h * 2⌋ : ℝ) := by exact_mod_cast hfm
    have hW : (w : ℝ) * c + h * sv + 40 ≤
        (expandedWidth w h a : ℝ) + (⌊rotationMargin w h * 2⌋ : ℝ) := by linarith
    have hH : (w : ℝ) * sv + h * c + 40 ≤
        (expandedHeight w h a : ℝ) + (⌊rotationMargin w h * 2⌋ : ℝ) := by linarith
    have hstep : ((w : ℝ) * c + h * sv + 40) * ((w : ℝ) * sv + h * c + 40) ≤
        ((expandedWidth w h a : ℝ) + (⌊rotationMargin w h * 2⌋ : ℝ)) *
          ((expandedHeight w h a : ℝ) + (⌊rotationMargin w h * 2⌋ : ℝ)) :=
      mul_le_mul hW hH (by linarith) (by linarith)
    nlinarith [hAB, hstep, hA, hB]
  exact_mod_cast hcast

/-- The working buffer after the rotation step is at least 1×1 and its pixel
area is at least the original image's area. -/
theorem rotatedBuffer_dims (img : PixelBuffer) (opts : Options) (rotData : List ℕ)
    (hw : 1 ≤ img.width) (hh : 1 ≤ img.height) :
    1 ≤ (rotatedBuffer img opts rotData).width ∧
    1 ≤ (rotatedBuffer img opts rotData).height ∧
    (img.width : ℤ) * img.height ≤
      ((rotatedBuffer img opts rotData).width : ℤ) *
        ((rotatedBuffer img opts rotData).height : ℤ) := by
  unfold rotatedBuffer
  split
  · obtain ⟨h40w, h40h, harea⟩ := rotCanvas_area img.width img.height opts.rotation hw hh
    simp only []
    refine ⟨by omega, by omega, ?_⟩
    rw [Int.toNat_of_nonneg (by omega), Int.toNat_of_nonneg (by omega)]
    exact harea
  · exact ⟨hw, hh, le_refl _⟩

/-- The auto-crop bounding box (either method) is at least 1×1 and its area is
no larger than the working canvas's area. -/
theorem autoCropBox_area (img : PixelBuffer) (opts : Options) (working : PixelBuffer)
    (hw : 1 ≤ img.width) (hh : 1 ≤ img.height)
    (hw1 : 1 ≤ working.width) (hh1 : 1 ≤ working.height)
    (harea : (img.width : ℤ) * img.height ≤ (working.width : ℤ) * working.height) :
    1 ≤ (autoCropBox img opts working).width ∧
    1 ≤ (autoCropBox img opts working).height ∧
    (autoCropBox img opts working).width * (autoCropBox img opts working).height ≤
      (working.width : ℤ) * working.height := by
  unfold autoCropBox
  by_cases hg : opts.useGeometricCrop
  · simp only [if_pos hg]
    obtain ⟨g1, g2, g3, g4⟩ := geometricBox_dims img.width img.height opts.rotation
      (working.width : ℝ) (working.height : ℝ)
      (if opts.shavePixels = 0 then 1 else opts.shavePixels) hw hh
    refine ⟨g1, g3, ?_⟩
    calc _ ≤ (img.width : ℤ) * img.height :=
          mul_le_mul g2 g4 (by omega) (by positivity)
      _ ≤ _ := harea
  · simp only [if_neg hg]
    by_cases hr : opts.rotation ≠ 0
    · simp only [if_pos hr]
      obtain ⟨b1, b2, b3, b4⟩ :=
        autoCropByAlphaWithMarginCompensation_box working 12 hw1 hh1
      exact ⟨b1, b3, mul_le_mul b2 b4 (by omega) (by positivity)⟩
    · simp only [if_neg hr]
      obtain ⟨b1, b2, b3, b4⟩ := autoCropByAlpha_box working 0 hw1 hh1
      exact ⟨b1, b3, mul_le_mul b2 b4 (by omega) (by positivity)⟩

/-! ## Claim C9: per-stage area behaviour of the pipeline -/

/-- **C9** (amended): in `processImage`, every stage other than rotation and
an explicitly requested resize is area-non-increasing: the auto-crop stage
(under either crop method), the user-crop stage (whenever the requested crop
rectangle fits inside its input canvas), and the export stage all produce a
canvas of pixel area at most their input's.  The rotation stage is excluded:
it *expands* the canvas to the rotated bounding box plus safety margins (see
the counterexample to the unamended claim). -/
theorem pipeline_stage_area_nonincreasing (img : PixelBuffer) (opts : Options)
    (rotData : List ℕ) (s : Stage) (hs : s ∈ processTrace img opts rotData)
    (hw : 1 ≤ img.width) (hh : 1 ≤ img.height)
    (hn1 : s.name ≠ .rotate) (hn2 : s.name ≠ .resize)
    (hcrop : s.name = .usercrop →
      (opts.cropWidth : ℤ) ≤ s.inWidth ∧ (opts.cropHeight : ℤ) ≤ s.inHeight) :
    s.outWidth * s.outHeight ≤ s.inWidth * s.inHeight := by
  have hrb := rotatedBuffer_dims img opts rotData hw hh
  have hac := autoCropBox_area img opts (rotatedBuffer img opts rotData) hw hh
    hrb.1 hrb.2.1 hrb.2.2
  by_cases hcondc : 0 < opts.cropWidth ∧ 0 < opts.cropHeight <;>
    by_cases hcondr : 0 < opts.resizeWidth ∨ 0 < opts.resizeHeight
  · simp only [processTrace, if_pos hcondc, if_pos hcondr,
      List.mem_cons, List.mem_append, List.not_mem_nil, or_false,
      List.mem_singleton] at hs
    rcases hs with rfl | rfl | (rfl | rfl) | rfl
    · exact absurd rfl hn1
    · exact hac.2.2
    · obtain ⟨hc1, hc2⟩ := hcrop rfl
      exact mul_le_mul hc1 hc2 (Int.natCast_nonneg _) (le_trans zero_le_one hac.1)
    · exact absurd rfl hn2
    · exact le_refl _
  · simp only [processTrace, if_pos hcondc, if_neg hcondr,
      List.nil_append, List.append_nil, List.mem_cons, List.mem_append,
      List.not_mem_nil, or_false, List.mem_singleton] at hs
    rcases hs with rfl | rfl | (rfl | rfl)
    · exact absurd rfl hn1
    · exact hac.2.2
    · obtain ⟨hc1, hc2⟩ := hcrop rfl
      exact mul_le_mul hc1 hc2 (Int.natCast_nonneg _) (le_trans zero_le_one hac.1)
    · exact le_refl _
  · simp only [processTrace, if_neg hcondc, if_pos hcondr,
      List.nil_append, List.append_nil, List.mem_cons, List.mem_append,
      List.not_mem_nil, or_false, List.mem_singleton] at hs
    rcases hs with rfl | rfl | (rfl | rfl)
    · exact absurd rfl hn1
    · exact hac.2.2
    · exact absurd rfl hn2
    · exact le_refl _
  · simp only [processTrace, if_neg hcondc, if_neg hcondr,
      List.nil_append, List.append_nil, List.mem_cons, List.mem_append,
      List.not_mem_nil, or_false, List.mem_singleton] at hs
    rcases hs with rfl | rfl | rfl
    · exact absurd rfl hn1
    · exact hac.2.2
    · exact le_refl _

/-- Options of a plain invocation: no rotation, no crop, no resize, PNG. -/
def plainOptions : Options :=
  ⟨0, 0, 0, 0, 0, 0, 0, false, .png, 90, 1, true⟩

/-- Options of a 45°-rotation invocation with no crop and no resize. -/
def rot45Options : Options :=
  ⟨45, 0, 0, 0, 0, 0, 0, false, .png, 90, 1, true⟩

/-- Options requesting a 500×500 manual crop on an unrotated image. -/
def bigCropOptions : Options :=
  ⟨0, 0, 0, 500, 500, 0, 0, false, .png, 90, 1, true⟩

theorem geoNormalizedAngle_zero : geoNormalizedAngle 0 = 0 := by
  norm_num [geoNormalizedAngle, jsRem, truncQ]

/-- On a plain (unrotated, geometric) invocation over a 4×4 image, the
auto-crop box is the centered 2×2 rectangle left by the default 1-pixel shave. -/
theorem autoCropBox_plain_4x4 :
    autoCropBox ⟨4, 4, []⟩ plainOptions ⟨4, 4, []⟩ = ⟨1, 1, 2, 2⟩ ∧
    autoCropBox ⟨4, 4, []⟩ bigCropOptions ⟨4, 4, []⟩ = ⟨1, 1, 2, 2⟩ := by
  have key : calculateGeometricInscribedRectangle 4 4 0 ((4 : ℕ) : ℝ) ((4 : ℕ) : ℝ) 1 =
      ⟨1, 1, 2, 2⟩ := by
    unfold calculateGeometricInscribedRectangle
    rw [geoNormalizedAngle_zero, if_pos rfl]
    norm_num [Rect.mk.injEq]
  constructor <;>
  · unfold autoCropBox
    simp only [plainOptions, bigCropOptions]
    norm_num
    exact key

theorem rotatedBuffer_plain_4x4 :
    rotatedBuffer ⟨4, 4, []⟩ plainOptions [] = ⟨4, 4, []⟩ ∧
    rotatedBuffer ⟨4, 4, []⟩ bigCropOptions [] = ⟨4, 4, []⟩ := by
  constructor <;>
  · unfold rotatedBuffer
    rw [if_neg]
    simp [plainOptions, bigCropOptions]

/-- Witness for C9: in the plain 4×4 run, the auto-crop stage appears in the
trace with input 4×4 and output 2×2, and the amended theorem yields
`2·2 ≤ 4·4` for it. -/
theorem pipeline_stage_area_nonincreasing_witness :
    (⟨.autocrop, 4, 4, 2, 2, .transparent⟩ : Stage) ∈
      processTrace ⟨4, 4, []⟩ plainOptions [] ∧
    ((⟨.autocrop, 4, 4, 2, 2, .transparent⟩ : Stage).outWidth *
        (⟨.autocrop, 4, 4, 2, 2, .transparent⟩ : Stage).outHeight ≤
      (⟨.autocrop, 4, 4, 2, 2, .transparent⟩ : Stage).inWidth *
        (⟨.autocrop, 4, 4, 2, 2, .transparent⟩ : Stage).inHeight) := by
  have hmem : (⟨.autocrop, 4, 4, 2, 2, .transparent⟩ : Stage) ∈
      processTrace ⟨4, 4, []⟩ plainOptions [] := by
    simp only [processTrace, rotatedBuffer_plain_4x4.1, autoCropBox_plain_4x4.1]
    simp [plainOptions]
  refine ⟨hmem, ?_⟩
  exact pipeline_stage_area_nonincreasing ⟨4, 4, []⟩ plainOptions [] _ hmem
    (by norm_num) (by norm_num) (by simp) (by simp) (by simp)

/-- Counterexample to C9 as stated: the rotation stage of a 45° run on a
100×100 image *expands* the canvas (to 182×182, the ceiling of the rotated
bounding box plus the 20-pixel margins), and a 500×500 manual crop on a small
canvas also expands it; so "output area ≤ input area" does not hold of every
stage. -/
theorem pipeline_area_claim_counterexample :
    (∃ s ∈ processTrace ⟨100, 100, []⟩ rot45Options [], s.name = .rotate ∧
      s.inWidth * s.inHeight < s.outWidth * s.outHeight) ∧
    (∃ s ∈ processTrace ⟨4, 4, []⟩ bigCropOptions [], s.name = .usercrop ∧
      s.inWidth * s.inHeight < s.outWidth * s.outHeight) := by
  constructor
  · have hnorm : normalizeAngle 45 = 45 := by
      norm_num [normalizeAngle, jsRem, truncQ]
    have h2 : Real.sqrt 2 ^ 2 = 2 := Real.sq_sqrt (by norm_num)
    have h2nn : (0 : ℝ) ≤ Real.sqrt 2 := Real.sqrt_nonneg 2
    have hceil : (⌈(100 : ℝ) * (Real.sqrt 2 / 2) + 100 * (Real.sqrt 2 / 2)⌉ : ℤ) = 142 := by
      rw [show (100 : ℝ) * (Real.sqrt 2 / 2) + 100 * (Real.sqrt 2 / 2) =
        100 * Real.sqrt 2 by ring]
      rw [Int.ceil_eq_iff]
      constructor
      · push_cast
        nlinarith
      · push_cast
        nlinarith
    have hmargin : rotationMargin 100 100 = 20 := by
      unfold rotationMargin
      norm_num
    have hbuf : rotatedBuffer ⟨100, 100, []⟩ rot45Options [] = ⟨182, 182, []⟩ := by
      unfold rotatedBuffer rotCanvasWidth rotCanvasHeight expandedWidth expandedHeight
      rw [if_pos]
      · simp only [rot45Options, hmargin]
        rw [show cosAbs (normalizeAngle 45) = Real.sqrt 2 / 2 by rw [hnorm, cosAbs_45],
          show sinAbs (normalizeAngle 45) = Real.sqrt 2 / 2 by rw [hnorm, sinAbs_45]]
        push_cast [hceil]
        norm_num
        decide
      · constructor
        · norm_num [rot45Options]
        · rw [rot45Options, hnorm]
          norm_num
    refine ⟨⟨.rotate, 100, 100, 182, 182, .transparent⟩, ?_, rfl, by norm_num⟩
    simp only [processTrace, hbuf]
    simp
  · refine ⟨⟨.usercrop, 2, 2, 500, 500, .transparent⟩, ?_, rfl, by norm_num⟩
    simp only [processTrace, rotatedBuffer_plain_4x4.2, autoCropBox_plain_4x4.2]
    simp [bigCropOptions]

/-! ## Claim C10: idempotence of the alpha bounding-box scan -/

/-- A 3×3 buffer whose nine pixels are all dark grey at alpha 100
(every pixel qualifies for the scan, yet every pixel is also "suspicious"
for the refinement pass, whose low-alpha test uses the unrelated bound 150). -/
def darkPixels : List ℕ :=
  List.flatten (List.replicate 9 [50, 50, 50, 100])

/-- A 2×2 buffer whose four pixels are opaque black (qualifying and in no way
suspicious). -/
def blackPixels : List ℕ :=
  List.flatten (List.replicate 4 [0, 0, 0, 255])

/-- Counterexample to C10 as stated: in the 3×3 dark buffer every border row
and column contains qualifying pixels (indeed every pixel qualifies), so the
buffer is already tightly cropped to its content, yet the scan does **not**
return the full bounds `{0, 0, 3, 3}`: the refinement pass judges every row
more than 70% suspicious (alpha 100 < 150) and contracts the box to
`{x = 0, y = 3, width = 3, height = 1}`. -/
theorem alpha_scan_idempotence_counterexample :
    (∀ x < 3, validPixel darkPixels 3 0 x 0 = true ∧ validPixel darkPixels 3 0 x 2 = true) ∧
    (∀ y < 3, validPixel darkPixels 3 0 0 y = true ∧ validPixel darkPixels 3 0 2 y = true) ∧
    calculateAlphaBoundingBox darkPixels 3 3 0 = some ⟨0, 3, 3, 1⟩ ∧
    calculateAlphaBoundingBox darkPixels 3 3 0 ≠ some ⟨0, 0, 3, 3⟩ := by
  decide

/-- **C10** (amended): the alpha scan is idempotent on a tightly cropped buffer
*provided no border line looks like a rotation artifact*: if every border row
and column contains at least one qualifying pixel, and moreover each of the
four border lines has at most 70% suspicious pixels (so the refinement pass
stops immediately on every side), then `calculateAlphaBoundingBox` returns the
full buffer bounds `{0, 0, width, height}` with no reduction. -/
theorem alpha_scan_idempotent_amended (data : List ℕ) (w h t : ℕ)
    (hw : 1 ≤ w) (hh : 1 ≤ h)
    (hleft : ∃ y, y < h ∧ validPixel data w t 0 y = true)
    (hright : ∃ y, y < h ∧ validPixel data w t (w - 1) y = true)
    (htop : ∃ x, x < w ∧ validPixel data w t x 0 = true)
    (hbottom : ∃ x, x < w ∧ validPixel data w t x (h - 1) = true)
    (hrow0 : rowSuspicious data w 0 ((w : ℤ) - 1) 0 = false)
    (hrowh : rowSuspicious data w 0 ((w : ℤ) - 1) ((h : ℤ) - 1) = false)
    (hcol0 : colSuspicious data w 0 ((h : ℤ) - 1) 0 = false)
    (hcolw : colSuspicious data w 0 ((h : ℤ) - 1) ((w : ℤ) - 1) = false) :
    calculateAlphaBoundingBox data w h t = some ⟨0, 0, (w : ℤ), (h : ℤ)⟩ := by
  obtain ⟨yl, hyl, hvl⟩ := hleft
  obtain ⟨yr, hyr, hvr⟩ := hright
  obtain ⟨xt, hxt, hvt⟩ := htop
  obtain ⟨xb, hxb, hvb⟩ := hbottom
  obtain ⟨b1, b2, b3, b4⟩ := scanFold_bounds data w h t
  have hl := scanFoldl_reaches data w t (coords w h) ⟨(w : ℤ), (h : ℤ), -1, -1⟩
    (0, yl) (mem_coords.2 ⟨by omega, hyl⟩) hvl
  have hr := scanFoldl_reaches data w t (coords w h) ⟨(w : ℤ), (h : ℤ), -1, -1⟩
    (w - 1, yr) (mem_coords.2 ⟨by omega, hyr⟩) hvr
  have ht' := scanFoldl_reaches data w t (coords w h) ⟨(w : ℤ), (h : ℤ), -1, -1⟩
    (xt, 0) (mem_coords.2 ⟨hxt, by omega⟩) hvt
  have hb := scanFoldl_reaches data w t (coords w h) ⟨(w : ℤ), (h : ℤ), -1, -1⟩
    (xb, h - 1) (mem_coords.2 ⟨hxb, by omega⟩) hvb
  rw [show (coords w h).foldl (scanStep data w t) ⟨(w : ℤ), (h : ℤ), -1, -1⟩ =
      scanFold data w h t from rfl] at hl hr ht' hb
  have hminX : (scanFold data w h t).minX = 0 := le_antisymm (by exact_mod_cast hl.1) b1
  have hminY : (scanFold data w h t).minY = 0 := le_antisymm (by exact_mod_cast ht'.2.1) b2
  have hmaxX : (scanFold data w h t).maxX = (w : ℤ) - 1 := by
    have := hr.2.2.1
    push_cast at this
    omega
  have hmaxY : (scanFold data w h t).maxY = (h : ℤ) - 1 := by
    have := hb.2.2.2
    push_cast at this
    omega
  simp only [calculateAlphaBoundingBox]
  rw [hminX, hminY, hmaxX, hmaxY, if_neg (by omega)]
  have hrect : (⟨0, 0, (w : ℤ) - 1 - 0 + 1, (h : ℤ) - 1 - 0 + 1⟩ : Rect) =
      ⟨0, 0, (w : ℤ), (h : ℤ)⟩ := by
    rw [Rect.mk.injEq]
    refine ⟨rfl, rfl, by ring, by ring⟩
  rw [hrect]
  have hY1 : refineMinY data w ⟨0, 0, (w : ℤ), (h : ℤ)⟩ = 0 := by
    unfold refineMinY
    apply stripForward_break
    show rowSuspicious data w 0 (0 + (w : ℤ) - 1) 0 = false
    rw [zero_add]
    exact hrow0
  have hY2 : refineMaxY data w ⟨0, 0, (w : ℤ), (h : ℤ)⟩ = (h : ℤ) - 1 := by
    unfold refineMaxY
    have : (0 : ℤ) + (h : ℤ) - 1 = (h : ℤ) - 1 := by ring
    rw [this]
    apply stripBackward_break
    show rowSuspicious data w 0 (0 + (w : ℤ) - 1) ((h : ℤ) - 1) = false
    rw [zero_add]
    exact hrowh
  have hX1 : refineMinX data w ⟨0, 0, (w : ℤ), (h : ℤ)⟩ = 0 := by
    unfold refineMinX
    rw [hY1, hY2]
    apply stripForward_break
    show colSuspicious data w 0 ((h : ℤ) - 1) 0 = false
    exact hcol0
  have hX2 : refineMaxX data w ⟨0, 0, (w : ℤ), (h : ℤ)⟩ = (w : ℤ) - 1 := by
    unfold refineMaxX
    rw [hY1, hY2, hX1]
    have : (0 : ℤ) + (w : ℤ) - 1 = (w : ℤ) - 1 := by ring
    rw [this]
    apply stripBackward_break
    show colSuspicious data w 0 ((h : ℤ) - 1) ((w : ℤ) - 1) = false
    exact hcolw
  unfold refineBoundingBox
  rw [hX1, hX2, hY1, hY2]
  rw [Option.some.injEq, Rect.mk.injEq]
  refine ⟨rfl, rfl, by omega, by omega⟩

/-- Witness for C10 (amended): the opaque-black 2×2 buffer is tightly cropped,
none of its border lines is suspicious, and the scan returns the full bounds
`{0, 0, 2, 2}`. -/
theorem alpha_scan_idempotent_amended_witness :
    rowSuspicious blackPixels 2 0 ((2 : ℤ) - 1) 0 = false ∧
    calculateAlphaBoundingBox blackPixels 2 2 0 = some ⟨0, 0, 2, 2⟩ := by
  have h := alpha_scan_idempotent_amended blackPixels 2 2 0 (by norm_num) (by norm_num)
    ⟨0, by norm_num, by decide⟩ ⟨0, by norm_num, by decide⟩
    ⟨0, by norm_num, by decide⟩ ⟨0, by norm_num, by decide⟩
    (by decide) (by decide) (by decide) (by decide)
  exact ⟨by decide, by exact_mod_cast h⟩

end ImageProc
